import Mathlib

/-!
# Verification of the cashier-epyepe POS core

A shallow embedding of the order/cart pricing and lifecycle engine of the
`cashier-epyepe` point-of-sale application, together with proofs of the
specified properties.

The embedding follows the TypeScript source:
* the data model (`types.ts`),
* the pricing engine (`calculateItemTotal`, modelled from the spec since the
  `utils` module is not part of the provided sources, and `cartTotal` from
  `CashierView.tsx`),
* the store operations (`createOrder`, `updateOrder`, `updateOrderStatus`,
  `updateOrderPaymentStatus`, `toggleOrderItemPrepared` from the store
  provider),
* the order-detail panel logic (`isEditBlocked`, `handleUpdateQuantity`,
  `handleSave` status recomputation from `OrderDetailPanel.tsx`).

Currency amounts are exact integer minor units (`Nat`); stock counters are
`Int` (the source decrements them without a floor); quantities are `Nat`.
-/

namespace Pos

/-- `BundleConfig` from `types.ts`. -/
structure BundleConfig where
  enabled : Bool
  buyQuantity : Nat
  bundlePrice : Nat
  showPromoLabel : Bool
  deriving Repr, DecidableEq

/-- `MenuItem` from `types.ts`.  `image` is presentation-only and omitted. -/
structure MenuItem where
  id : String
  name : String
  basePrice : Nat
  bundle : Option BundleConfig
  stock : Option Int
  minStock : Option Int
  deriving Repr, DecidableEq

/-- `CartItem` from `types.ts`: a `MenuItem` snapshot plus order-specific
fields.  The optional `isPrepared?: boolean` of the source is modelled as a
`Bool` (the source only ever reads it through boolean coercion, where
`undefined` behaves as `false`). -/
structure CartItem where
  id : String
  name : String
  basePrice : Nat
  bundle : Option BundleConfig
  stock : Option Int
  minStock : Option Int
  quantity : Nat
  note : Option String
  isPrepared : Bool
  deriving Repr, DecidableEq

/-- `OrderStatus` from `types.ts`.  Note the source union includes the
literal string `Paid` alongside the five fulfillment statuses. -/
inductive OrderStatus where
  | Pending
  | Paid
  | Completed
  | Cancelled
  | Preparing
  | PickedUp
  deriving Repr, DecidableEq

/-- The payment-status axis (`'Paid' | 'Unpaid'` in `types.ts`). -/
inductive PaymentStatus where
  | Paid
  | Unpaid
  deriving Repr, DecidableEq

/-- The five fulfillment-status values enumerated by the spec (§4.2); the
source's extra literal `Paid` is not among them. -/
def OrderStatus.isFulfillment : OrderStatus → Bool
  | .Pending => true
  | .Completed => true
  | .Cancelled => true
  | .Preparing => true
  | .PickedUp => true
  | .Paid => false

/-- `OrderEditLog` from `types.ts`. -/
structure OrderEditLog where
  timestamp : String
  changes : String
  deriving Repr, DecidableEq

/-- `Order` from `types.ts`. -/
structure Order where
  id : String
  customerName : String
  items : List CartItem
  total : Nat
  status : OrderStatus
  paymentStatus : PaymentStatus
  createdAt : String
  note : Option String
  editHistory : List OrderEditLog
  deriving Repr, DecidableEq

/-! ## Pricing engine -/

/-- Modelled from the spec: the repository's `calculateItemTotal` lives in
the `utils` module, which is not among the provided source files (it is only
imported by `CashierView.tsx` and `OrderDetailPanel.tsx`).  Spec §4.1: if
`item.bundle` is absent or `enabled` is false, total = `basePrice * quantity`;
if the bundle is enabled with `b = buyQuantity`, total =
`floor(quantity / b) * bundlePrice + (quantity mod b) * basePrice`. -/
def calculateItemTotal (item : CartItem) (quantity : Nat) : Nat :=
  match item.bundle with
  | some b =>
      if b.enabled then
        quantity / b.buyQuantity * b.bundlePrice +
          quantity % b.buyQuantity * item.basePrice
      else
        item.basePrice * quantity
  | none => item.basePrice * quantity

/-- `cartTotal` from `CashierView.tsx` line 43:
`cart.reduce((sum, item) => sum + calculateItemTotal(item, item.quantity), 0)`. -/
def cartTotal (cart : List CartItem) : Nat :=
  cart.foldl (fun sum item => sum + calculateItemTotal item item.quantity) 0

/-- The `Croissant` entry of `DEFAULT_MENU` in the store provider, as a cart
item: `basePrice` 20000, bundle enabled with `buyQuantity` 3 and
`bundlePrice` 50000 (the spec's §8 bundle-pricing example). -/
def croissant : CartItem :=
  { id := "3"
    name := "Croissant"
    basePrice := 20000
    bundle := some { enabled := true, buyQuantity := 3, bundlePrice := 50000, showPromoLabel := true }
    stock := some 20
    minStock := some 5
    quantity := 1
    note := none
    isPrepared := false }

/-! ## Cashier cart (`CashierView.tsx`) -/

/-- `updateQuantity` from `CashierView.tsx` lines 30-37: sets the matching
item's quantity to `Math.max(0, quantity + delta)` and then filters out all
items whose quantity is not positive. -/
def updateQuantity (cart : List CartItem) (itemId : String) (delta : Int) : List CartItem :=
  (cart.map fun item =>
    if item.id = itemId then
      { item with quantity := (max 0 ((item.quantity : Int) + delta)).toNat }
    else item).filter fun item => decide (0 < item.quantity)

/-! ## Order detail panel (`OrderDetailPanel.tsx`) -/

/-- `isEditBlocked` from `OrderDetailPanel.tsx` lines 38-43:
`(isCompleted || isPickedUp) && isPaid`. -/
def isEditBlocked (order : Order) : Bool :=
  decide ((order.status = OrderStatus.Completed ∨ order.status = OrderStatus.PickedUp)
    ∧ order.paymentStatus = PaymentStatus.Paid)

/-- The edit affordance from `OrderDetailPanel.tsx` line 216: the edit button
is rendered when `!isEditBlocked && order.status !== 'Cancelled'` (the
`!isEditing` conjunct is transient UI mode, not an editability rule). -/
def canEditOrder (order : Order) : Bool :=
  !isEditBlocked order && decide (order.status ≠ OrderStatus.Cancelled)

/-- `handleUpdateQuantity` from `OrderDetailPanel.tsx` lines 73-83: the
matching item's quantity becomes `Math.max(1, quantity + delta)`; when the
quantity increases (`delta > 0`) the prepared flag is reset to `false`,
otherwise it is kept. -/
def handleUpdateQuantity (editedItems : List CartItem) (itemId : String) (delta : Int) :
    List CartItem :=
  editedItems.map fun item =>
    if item.id = itemId then
      { item with
        quantity := (max 1 ((item.quantity : Int) + delta)).toNat
        isPrepared := if 0 < delta then false else item.isPrepared }
    else item

/-- The status recomputation inside `handleSave` (`OrderDetailPanel.tsx`
lines 138-151): derive the status from the edited items' prepared counts
unless the current status is `Cancelled` or `Picked Up`. -/
def handleSaveStatus (order : Order) (editedItems : List CartItem) : OrderStatus :=
  let totalItems := editedItems.length
  let preparedCount := (editedItems.filter fun i => i.isPrepared).length
  if order.status ≠ OrderStatus.Cancelled ∧ order.status ≠ OrderStatus.PickedUp then
    if preparedCount = 0 then OrderStatus.Pending
    else if preparedCount = totalItems then OrderStatus.Completed
    else OrderStatus.Preparing
  else order.status

/-! ## Store operations (the `StoreProvider` actions) -/

/-- The draft handed to `createOrder` (an `Order` without `id`, `createdAt`
and `status`). -/
structure OrderDraft where
  customerName : String
  items : List CartItem
  total : Nat
  paymentStatus : PaymentStatus
  note : Option String
  editHistory : List OrderEditLog
  deriving Repr, DecidableEq

/-- The status seeding in `createOrder`:
`orderData.paymentStatus === 'Paid' ? 'Paid' : 'Pending'`. -/
def seedStatus (paymentStatus : PaymentStatus) : OrderStatus :=
  if paymentStatus = PaymentStatus.Paid then OrderStatus.Paid else OrderStatus.Pending

/-- `newOrderLocal` built at the top of `createOrder`: items get
`isPrepared: false`, the status is seeded from the payment status. -/
def newOrderLocal (draft : OrderDraft) (newId now : String) : Order :=
  { id := newId
    customerName := draft.customerName
    items := draft.items.map fun item => { item with isPrepared := false }
    total := draft.total
    status := seedStatus draft.paymentStatus
    paymentStatus := draft.paymentStatus
    createdAt := now
    note := draft.note
    editHistory := draft.editHistory }

/-- A row of the denormalized `order_items` projection table. -/
structure OrderItemRow where
  orderId : String
  menuItemId : String
  name : String
  quantity : Nat
  basePrice : Nat
  isPrepared : Bool
  note : Option String
  deriving Repr, DecidableEq

/-- Outcome of the remote branch of `createOrder`: the returned order (or
`none` on failure), the projection rows inserted into `order_items`, and the
per-menu-item stock writes (`itemId`, new stock value). -/
structure CreateOrderResult where
  result : Option Order
  rows : List OrderItemRow
  stockWrites : List (String × Int)
  deriving Repr, DecidableEq

/-- The remote branch of `createOrder` (store provider lines 275-320).
`writeOk` models whether the `orders` insert succeeds.  On failure the
function returns `null` before any `order_items` insert or stock write; on
success it inserts one projection row per item and then, for every line item
whose menu item exists and tracks stock, writes `stock - quantity`. -/
def createOrderRemote (menu : List MenuItem) (draft : OrderDraft) (newId now : String)
    (writeOk : Bool) : CreateOrderResult :=
  let order := newOrderLocal draft newId now
  if writeOk then
    { result := some order
      rows := order.items.map fun item =>
        { orderId := newId
          menuItemId := item.id
          name := item.name
          quantity := item.quantity
          basePrice := item.basePrice
          isPrepared := false
          note := item.note }
      stockWrites := draft.items.filterMap fun item =>
        match menu.find? (fun m => decide (m.id = item.id)) with
        | some menuItem =>
            match menuItem.stock with
            | some s => some (item.id, s - (item.quantity : Int))
            | none => none
        | none => none }
  else
    { result := none, rows := [], stockWrites := [] }

/-- Outcome of a single-field order update against the remote backend: the
in-memory (optimistic) collection, the backend's authoritative collection,
and whether the write succeeded. -/
structure FieldUpdateResult where
  localOrders : List Order
  backendOrders : List Order
  success : Bool
  deriving Repr, DecidableEq

/-- `updateOrderStatus` (store provider lines 337-353): the in-memory
collection is updated optimistically first; on backend failure the `catch`
block only logs and raises an error toast — it performs no rollback and no
re-fetch, so the in-memory collection keeps the attempted value. -/
def updateOrderStatus (localOrders backendOrders : List Order) (id : String)
    (status : OrderStatus) (writeOk : Bool) : FieldUpdateResult :=
  let optimistic := localOrders.map fun o => if o.id = id then { o with status := status } else o
  if writeOk then
    { localOrders := optimistic
      backendOrders := backendOrders.map fun o => if o.id = id then { o with status := status } else o
      success := true }
  else
    { localOrders := optimistic, backendOrders := backendOrders, success := false }

/-- `updateOrderPaymentStatus` (store provider lines 355-371): same shape as
`updateOrderStatus`, also with no rollback in the `catch` block. -/
def updateOrderPaymentStatus (localOrders backendOrders : List Order) (id : String)
    (paymentStatus : PaymentStatus) (writeOk : Bool) : FieldUpdateResult :=
  let optimistic :=
    localOrders.map fun o => if o.id = id then { o with paymentStatus := paymentStatus } else o
  if writeOk then
    { localOrders := optimistic
      backendOrders :=
        backendOrders.map fun o => if o.id = id then { o with paymentStatus := paymentStatus } else o
      success := true }
  else
    { localOrders := optimistic, backendOrders := backendOrders, success := false }

/-- `toggleOrderItemPrepared` (store provider lines 490-530): find the order
(no-op when absent), flip the matching item's prepared flag, derive the new
status from the updated items unless the current status is `Cancelled` or
`Picked Up`, and write items and status together. -/
def toggleOrderItemPrepared (orders : List Order) (orderId itemId : String) : List Order :=
  match orders.find? (fun o => decide (o.id = orderId)) with
  | none => orders
  | some order =>
      let updatedItems := order.items.map fun item =>
        if item.id = itemId then { item with isPrepared := !item.isPrepared } else item
      let totalItems := updatedItems.length
      let preparedCount := (updatedItems.filter fun i => i.isPrepared).length
      let newStatus :=
        if order.status ≠ OrderStatus.Cancelled ∧ order.status ≠ OrderStatus.PickedUp then
          if preparedCount = 0 then OrderStatus.Pending
          else if preparedCount = totalItems then OrderStatus.Completed
          else OrderStatus.Preparing
        else order.status
      orders.map fun o =>
        if o.id = orderId then { o with items := updatedItems, status := newStatus } else o

/-! ## Stock reconciliation inside `updateOrder` -/

/-- `diffs[itemId] = (diffs[itemId] || 0) + d`, on an association list that
models the JS record (string keys in first-insertion order). -/
def upsertDiff (diffs : List (String × Int)) (id : String) (d : Int) : List (String × Int) :=
  if diffs.any fun p => decide (p.1 = id) then
    diffs.map fun p => if p.1 = id then (p.1, p.2 + d) else p
  else diffs ++ [(id, d)]

/-- `items.find(i => i.id === id)`. -/
def findItem (items : List CartItem) (id : String) : Option CartItem :=
  items.find? fun i => decide (i.id = id)

/-- The `diffs` record built inside `updateOrder` (store provider lines
428-448): a first pass over the old items credits removed or decreased
quantities, a second pass over the new items debits added or increased
quantities. -/
def computeDiffs (oldItems newItems : List CartItem) : List (String × Int) :=
  let d1 := oldItems.foldl
    (fun diffs oldItem =>
      match findItem newItems oldItem.id with
      | none => upsertDiff diffs oldItem.id (oldItem.quantity : Int)
      | some newItem =>
          if newItem.quantity < oldItem.quantity then
            upsertDiff diffs oldItem.id ((oldItem.quantity : Int) - (newItem.quantity : Int))
          else diffs)
    []
  newItems.foldl
    (fun diffs newItem =>
      match findItem oldItems newItem.id with
      | none => upsertDiff diffs newItem.id (-(newItem.quantity : Int))
      | some oldItem =>
          if oldItem.quantity < newItem.quantity then
            upsertDiff diffs newItem.id (-((newItem.quantity : Int) - (oldItem.quantity : Int)))
          else diffs)
    d1

/-- The stock-write loop of `updateOrder` (store provider lines 450-458):
zero deltas are skipped, and a write `stock + diff` is issued only for menu
items that exist and track stock.  Each element is one stock-adjustment call
(`itemId`, new stock value). -/
def stockAdjustments (menu : List MenuItem) (oldItems newItems : List CartItem) :
    List (String × Int) :=
  (computeDiffs oldItems newItems).filterMap fun p : String × Int =>
    if p.2 = 0 then (none : Option (String × Int))
    else
      match menu.find? (fun m => decide (m.id = p.1)) with
      | some menuItem =>
          match menuItem.stock with
          | some s => some (p.1, s + p.2)
          | none => none
      | none => none

/-- Net delta recorded for `id` (absent key means 0, as in the JS record). -/
def diffOf (diffs : List (String × Int)) (id : String) : Int :=
  match diffs.find? (fun p => decide (p.1 = id)) with
  | some p => p.2
  | none => 0

/-- Quantity of the first item with the given id, 0 when absent. -/
def qtyOf (items : List CartItem) (id : String) : Int :=
  match findItem items id with
  | some i => (i.quantity : Int)
  | none => 0

/-- No two items of the list share a menu-item id. -/
def uniqueIds (items : List CartItem) : Prop :=
  (items.map CartItem.id).Nodup

/-- A `Picked Up`, `Paid` sample order (spec §8 property 4). -/
def pickedUpPaidOrder : Order :=
  { id := "o1"
    customerName := "Guest"
    items := [croissant]
    total := 50000
    status := OrderStatus.PickedUp
    paymentStatus := PaymentStatus.Paid
    createdAt := "t0"
    note := none
    editHistory := [] }

/-- A draft for an order already marked paid at checkout. -/
def paidDraft : OrderDraft :=
  { customerName := "Guest"
    items := [croissant]
    total := 50000
    paymentStatus := PaymentStatus.Paid
    note := none
    editHistory := [] }

/-- The same draft, not yet paid. -/
def unpaidDraft : OrderDraft :=
  { paidDraft with paymentStatus := PaymentStatus.Unpaid }

/-! ## Helper lemmas -/

/-- Folding `+ f i` over a list starting from `acc` is `acc` plus the sum of
the images. -/
theorem foldl_add_eq_sum (f : CartItem → Nat) (cart : List CartItem) (acc : Nat) :
    cart.foldl (fun s i => s + f i) acc = acc + (cart.map f).sum := by
  induction cart generalizing acc with
  | nil => simp
  | cons head tail ih =>
      simp only [List.foldl_cons, List.map_cons, List.sum_cons, ih]
      omega

/-- Updating exactly the orders with the given id commutes with looking the
id up: the first match is replaced by its update. -/
theorem find?_map_update (orders : List Order) (orderId : String) (order : Order)
    (g : Order → Order)
    (hfind : orders.find? (fun o => decide (o.id = orderId)) = some order)
    (hg : (g order).id = order.id) :
    (orders.map fun o => if o.id = orderId then g o else o).find?
      (fun o => decide (o.id = orderId)) = some (g order) := by
  induction orders with
  | nil => simp at hfind
  | cons head tail ih =>
      by_cases h : head.id = orderId
      · rw [List.find?_cons_of_pos _ (by simp [h])] at hfind
        obtain rfl : head = order := by injection hfind
        rw [List.map_cons, if_pos h]
        exact List.find?_cons_of_pos _ (by simp [hg, h])
      · rw [List.find?_cons_of_neg _ (by simp [h])] at hfind
        rw [List.map_cons, if_neg h]
        rw [List.find?_cons_of_neg _ (by simp [h])]
        exact ih hfind

/-! ## C1: pricing engine -/

/-- C1: for a line item whose bundle is absent or disabled the total is
`basePrice * quantity`; for an enabled bundle with `buyQuantity` `b` it is
`floor(q / b) * bundlePrice + (q mod b) * basePrice`, so `q = 0` yields 0 and
the spec's `buyQuantity=3, basePrice=20000, bundlePrice=50000` example gives
40000 / 50000 / 90000 / 100000 at quantities 2 / 3 / 5 / 6; and the cart
total is the sum of `calculateItemTotal` over all line items. -/
theorem pricing_engine_spec (item : CartItem) (q : Nat) :
    (item.bundle = none → calculateItemTotal item q = item.basePrice * q)
    ∧ (∀ b, item.bundle = some b → b.enabled = false →
        calculateItemTotal item q = item.basePrice * q)
    ∧ (∀ b, item.bundle = some b → b.enabled = true →
        calculateItemTotal item q
          = q / b.buyQuantity * b.bundlePrice + q % b.buyQuantity * item.basePrice)
    ∧ calculateItemTotal item 0 = 0
    ∧ (calculateItemTotal croissant 2 = 40000 ∧ calculateItemTotal croissant 3 = 50000
      ∧ calculateItemTotal croissant 5 = 90000 ∧ calculateItemTotal croissant 6 = 100000)
    ∧ ∀ cart : List CartItem,
        cartTotal cart = (cart.map fun i => calculateItemTotal i i.quantity).sum := by
  refine ⟨?_, ?_, ?_, ?_, by decide, ?_⟩
  · intro h; simp [calculateItemTotal, h]
  · intro b hb he; simp [calculateItemTotal, hb, he]
  · intro b hb he; simp [calculateItemTotal, hb, he]
  · rcases hb : item.bundle with _ | b <;> simp [calculateItemTotal, hb]
  · intro cart
    simpa using foldl_add_eq_sum (fun i => calculateItemTotal i i.quantity) cart 0

/-- Witness for C1 at the spec's example item and quantity 5. -/
theorem pricing_engine_spec_witness :
    croissant.bundle = some (BundleConfig.mk true 3 50000 true)
    ∧ calculateItemTotal croissant 5
        = 5 / 3 * 50000 + 5 % 3 * croissant.basePrice :=
  ⟨rfl, (pricing_engine_spec croissant 5).2.2.1 _ rfl rfl⟩

/-! ## C3: edit-blocking rule -/

/-- C3: an order is editable iff it is not `Cancelled` and not edit-blocked,
where edit-blocked means (`Completed` or `Picked Up`) and `Paid`; in
particular `Picked Up`+`Paid` rejects edits while `Picked Up`+`Unpaid`
allows them. -/
theorem editable_iff (order : Order) :
    (canEditOrder order = true ↔
      order.status ≠ OrderStatus.Cancelled
        ∧ ¬((order.status = OrderStatus.Completed ∨ order.status = OrderStatus.PickedUp)
            ∧ order.paymentStatus = PaymentStatus.Paid))
    ∧ (order.status = OrderStatus.PickedUp → order.paymentStatus = PaymentStatus.Paid →
        canEditOrder order = false)
    ∧ (order.status = OrderStatus.PickedUp → order.paymentStatus = PaymentStatus.Unpaid →
        canEditOrder order = true) := by
  refine ⟨?_, ?_, ?_⟩
  · simp [canEditOrder, isEditBlocked]
    tauto
  · intro h1 h2; simp [canEditOrder, isEditBlocked, h1, h2]
  · intro h1 h2; simp [canEditOrder, isEditBlocked, h1, h2]

/-- Witness for C3: the `Picked Up`+`Paid` sample order rejects edits and the
same order with `Unpaid` allows them. -/
theorem editable_iff_witness :
    canEditOrder pickedUpPaidOrder = false
      ∧ canEditOrder { pickedUpPaidOrder with paymentStatus := PaymentStatus.Unpaid } = true :=
  ⟨(editable_iff pickedUpPaidOrder).2.1 rfl rfl,
   (editable_iff _).2.2 rfl rfl⟩

/-! ## C5: status seeding at creation -/

/-- C5 (code bug): `createOrder` seeds a draft that is already `Paid` to the
literal status `Paid`, which is not one of the five fulfillment statuses —
not to `Pending` as the claim requires; an `Unpaid` draft is seeded to
`Pending`. -/
theorem createOrder_seeds_literal_Paid :
    (newOrderLocal paidDraft "o1" "t0").status = OrderStatus.Paid
    ∧ OrderStatus.isFulfillment (newOrderLocal paidDraft "o1" "t0").status = false
    ∧ (newOrderLocal paidDraft "o1" "t0").status ≠ OrderStatus.Pending
    ∧ (newOrderLocal unpaidDraft "o1" "t0").status = OrderStatus.Pending := by
  refine ⟨rfl, rfl, by decide, rfl⟩

/-! ## C7: `Cancelled` / `Picked Up` are sticky under automatic derivation -/

/-- C7: when an order's status is `Cancelled` or `Picked Up`, toggling an
item's prepared flag leaves the status exactly as it was, and the status
recomputed by `handleSave` also equals the current status for any edited
items. -/
theorem terminal_statuses_sticky (orders : List Order) (orderId itemId : String) (order : Order)
    (hfind : orders.find? (fun o => decide (o.id = orderId)) = some order)
    (h : order.status = OrderStatus.Cancelled ∨ order.status = OrderStatus.PickedUp) :
    (∃ order', (toggleOrderItemPrepared orders orderId itemId).find?
        (fun o => decide (o.id = orderId)) = some order' ∧ order'.status = order.status)
    ∧ ∀ editedItems, handleSaveStatus order editedItems = order.status := by
  have hcond : ¬(order.status ≠ OrderStatus.Cancelled ∧ order.status ≠ OrderStatus.PickedUp) := by
    rcases h with h | h <;> simp [h]
  constructor
  · simp only [toggleOrderItemPrepared, hfind]
    exact ⟨_, find?_map_update orders orderId order _ hfind rfl, by simp [if_neg hcond]⟩
  · intro editedItems
    simp [handleSaveStatus, if_neg hcond]

/-- A cancelled sample order. -/
def cancelledOrder : Order :=
  { pickedUpPaidOrder with id := "o2", status := OrderStatus.Cancelled }

/-- Two unprepared sample line items. -/
def item1 : CartItem := { croissant with id := "i1", isPrepared := false }

/-- Second sample line item. -/
def item2 : CartItem := { croissant with id := "i2", isPrepared := false }

/-- A pending, unpaid sample order with two unprepared items. -/
def pendingOrder : Order :=
  { pickedUpPaidOrder with
    id := "o3"
    status := OrderStatus.Pending
    paymentStatus := PaymentStatus.Unpaid
    items := [item1, item2] }

/-- Witness for C7: toggling an item of a cancelled order leaves the status
`Cancelled`. -/
theorem terminal_statuses_sticky_witness :
    ([cancelledOrder].find? (fun o => decide (o.id = "o2")) = some cancelledOrder)
    ∧ ((∃ order', (toggleOrderItemPrepared [cancelledOrder] "o2" "3").find?
          (fun o => decide (o.id = "o2")) = some order' ∧ order'.status = cancelledOrder.status)
        ∧ ∀ editedItems, handleSaveStatus cancelledOrder editedItems = cancelledOrder.status) :=
  ⟨by decide,
   terminal_statuses_sticky [cancelledOrder] "o2" "3" cancelledOrder (by decide) (Or.inl rfl)⟩

/-! ## C2: toggling derives the status on non-terminal orders -/

/-- C2: on an order that is neither `Cancelled` nor `Picked Up`,
`toggleOrderItemPrepared` flips the matching item's prepared flag and sets
the status derived from the resulting items: `Pending` at 0 prepared,
`Completed` at N of N (N > 0), `Preparing` strictly in between. -/
theorem toggle_derives_status (orders : List Order) (orderId itemId : String) (order : Order)
    (hfind : orders.find? (fun o => decide (o.id = orderId)) = some order)
    (hc : order.status ≠ OrderStatus.Cancelled) (hp : order.status ≠ OrderStatus.PickedUp) :
    ∃ order', (toggleOrderItemPrepared orders orderId itemId).find?
        (fun o => decide (o.id = orderId)) = some order'
      ∧ order'.items = (order.items.map fun item =>
          if item.id = itemId then { item with isPrepared := !item.isPrepared } else item)
      ∧ ((order'.items.filter fun i => i.isPrepared).length = 0 →
          order'.status = OrderStatus.Pending)
      ∧ (0 < order'.items.length
          ∧ (order'.items.filter fun i => i.isPrepared).length = order'.items.length →
          order'.status = OrderStatus.Completed)
      ∧ (0 < (order'.items.filter fun i => i.isPrepared).length
          ∧ (order'.items.filter fun i => i.isPrepared).length < order'.items.length →
          order'.status = OrderStatus.Preparing) := by
  simp only [toggleOrderItemPrepared, hfind]
  refine ⟨_, find?_map_update orders orderId order _ hfind rfl, rfl, ?_, ?_, ?_⟩ <;>
    simp only [if_pos (And.intro hc hp)]
  · intro h0
    rw [if_pos h0]
  · intro ⟨hn, hall⟩
    rw [if_neg (by omega), if_pos hall]
  · intro ⟨hpos, hlt⟩
    rw [if_neg (by omega), if_neg (by omega)]

/-- Witness for C2: toggling one of the two items of the pending sample
order. -/
theorem toggle_derives_status_witness :
    ([pendingOrder].find? (fun o => decide (o.id = "o3")) = some pendingOrder)
    ∧ ∃ order', (toggleOrderItemPrepared [pendingOrder] "o3" "i1").find?
        (fun o => decide (o.id = "o3")) = some order'
      ∧ order'.items = (pendingOrder.items.map fun item =>
          if item.id = "i1" then { item with isPrepared := !item.isPrepared } else item)
      ∧ ((order'.items.filter fun i => i.isPrepared).length = 0 →
          order'.status = OrderStatus.Pending)
      ∧ (0 < order'.items.length
          ∧ (order'.items.filter fun i => i.isPrepared).length = order'.items.length →
          order'.status = OrderStatus.Completed)
      ∧ (0 < (order'.items.filter fun i => i.isPrepared).length
          ∧ (order'.items.filter fun i => i.isPrepared).length < order'.items.length →
          order'.status = OrderStatus.Preparing) :=
  ⟨by decide,
   toggle_derives_status [pendingOrder] "o3" "i1" pendingOrder (by decide)
     (by decide) (by decide)⟩

/-! ## C10: toggling is status-only-guarded and safe on missing ids -/

/-- C10: on a `Cancelled` order, `toggleOrderItemPrepared` still flips the
matching item's prepared flag in the persisted items and only leaves the
status unchanged; for an unknown order id it is a no-op. -/
theorem toggle_cancelled_or_missing (orders : List Order) (orderId itemId : String)
    (order : Order)
    (hfind : orders.find? (fun o => decide (o.id = orderId)) = some order)
    (hc : order.status = OrderStatus.Cancelled) :
    (∃ order', (toggleOrderItemPrepared orders orderId itemId).find?
        (fun o => decide (o.id = orderId)) = some order'
      ∧ order'.items = (order.items.map fun item =>
          if item.id = itemId then { item with isPrepared := !item.isPrepared } else item)
      ∧ order'.status = order.status)
    ∧ ∀ (orders2 : List Order) (oid iid : String),
        orders2.find? (fun o => decide (o.id = oid)) = none →
        toggleOrderItemPrepared orders2 oid iid = orders2 := by
  constructor
  · simp only [toggleOrderItemPrepared, hfind]
    refine ⟨_, find?_map_update orders orderId order _ hfind rfl, rfl, ?_⟩
    simp [if_neg, hc]
  · intro orders2 oid iid hnone
    simp only [toggleOrderItemPrepared, hnone]

/-- Witness for C10: toggling an item of the cancelled sample order flips
the item and keeps the status; a lookup miss is a no-op. -/
theorem toggle_cancelled_or_missing_witness :
    ([cancelledOrder].find? (fun o => decide (o.id = "o2")) = some cancelledOrder)
    ∧ ((∃ order', (toggleOrderItemPrepared [cancelledOrder] "o2" "3").find?
          (fun o => decide (o.id = "o2")) = some order'
        ∧ order'.items = (cancelledOrder.items.map fun item =>
            if item.id = "3" then { item with isPrepared := !item.isPrepared } else item)
        ∧ order'.status = cancelledOrder.status)
      ∧ ∀ (orders2 : List Order) (oid iid : String),
          orders2.find? (fun o => decide (o.id = oid)) = none →
          toggleOrderItemPrepared orders2 oid iid = orders2) :=
  ⟨by decide,
   toggle_cancelled_or_missing [cancelledOrder] "o2" "3" cancelledOrder (by decide) rfl⟩

/-! ## C6: no rollback in the single-field updates -/

/-- Counterexample to C6: after a failed `updateOrderStatus` write the
in-memory order keeps the attempted status `Completed`, which differs from
the backend's last-known-good status `Pending`. -/
theorem updateOrderStatus_rollback_cex :
    ((updateOrderStatus [pendingOrder] [pendingOrder] "o3" OrderStatus.Completed
        false).localOrders.find? (fun o => decide (o.id = "o3"))
      = some { pendingOrder with status := OrderStatus.Completed })
    ∧ ((updateOrderStatus [pendingOrder] [pendingOrder] "o3" OrderStatus.Completed
        false).backendOrders.find? (fun o => decide (o.id = "o3")) = some pendingOrder)
    ∧ OrderStatus.Completed ≠ pendingOrder.status := by
  refine ⟨by decide, by decide, by decide⟩

/-- C6 (amended): on a failed backend write, `updateOrderStatus` and
`updateOrderPaymentStatus` keep the optimistic in-memory update (the
attempted value) — no rollback or re-fetch happens — while the backend keeps
its last-known-good state; the failure is surfaced only as an error
notification. -/
theorem updateOrderStatus_failure_keeps_attempted (lo bo : List Order) (id : String)
    (st : OrderStatus) (ps : PaymentStatus) (order : Order)
    (hfind : lo.find? (fun o => decide (o.id = id)) = some order) :
    ((updateOrderStatus lo bo id st false).localOrders.find? (fun o => decide (o.id = id))
        = some { order with status := st })
    ∧ (updateOrderStatus lo bo id st false).backendOrders = bo
    ∧ (updateOrderStatus lo bo id st false).success = false
    ∧ ((updateOrderPaymentStatus lo bo id ps false).localOrders.find?
          (fun o => decide (o.id = id)) = some { order with paymentStatus := ps })
    ∧ (updateOrderPaymentStatus lo bo id ps false).backendOrders = bo
    ∧ (updateOrderPaymentStatus lo bo id ps false).success = false := by
  refine ⟨?_, rfl, rfl, ?_, rfl, rfl⟩
  · simp only [updateOrderStatus, Bool.false_eq_true, if_false]
    exact find?_map_update lo id order _ hfind rfl
  · simp only [updateOrderPaymentStatus, Bool.false_eq_true, if_false]
    exact find?_map_update lo id order _ hfind rfl

/-- Witness for the amended C6 at the pending sample order. -/
theorem updateOrderStatus_failure_keeps_attempted_witness :
    ((updateOrderStatus [pendingOrder] [] "o3" OrderStatus.Completed false).localOrders.find?
        (fun o => decide (o.id = "o3")) = some { pendingOrder with status := OrderStatus.Completed })
    ∧ (updateOrderStatus [pendingOrder] [] "o3" OrderStatus.Completed false).backendOrders = []
    ∧ (updateOrderStatus [pendingOrder] [] "o3" OrderStatus.Completed false).success = false
    ∧ ((updateOrderPaymentStatus [pendingOrder] [] "o3" PaymentStatus.Paid
          false).localOrders.find? (fun o => decide (o.id = "o3"))
        = some { pendingOrder with paymentStatus := PaymentStatus.Paid })
    ∧ (updateOrderPaymentStatus [pendingOrder] [] "o3" PaymentStatus.Paid
        false).backendOrders = []
    ∧ (updateOrderPaymentStatus [pendingOrder] [] "o3" PaymentStatus.Paid
        false).success = false :=
  updateOrderStatus_failure_keeps_attempted [pendingOrder] [] "o3" OrderStatus.Completed
    PaymentStatus.Paid pendingOrder (by decide)

/-! ## C8: creation is atomic w.r.t. stock and projection rows -/

/-- `toNat (max 1 x)` is at least one. -/
theorem one_le_toNat_max_one (x : Int) : 1 ≤ (max 1 x).toNat := by
  have h := Int.toNat_le_toNat (le_max_left 1 x)
  simp only [Int.toNat_one] at h
  exact h

/-- C8: when the backend order insert fails, `createOrder` returns the
failure signal with no projection rows and no stock writes; on success every
stock write pairs a line item with a stock-tracking menu item and decrements
that item's stock by the line quantity, and conversely every line item whose
menu item tracks stock gets such a write. -/
theorem createOrder_remote_atomic (menu : List MenuItem) (draft : OrderDraft)
    (newId now : String) :
    ((createOrderRemote menu draft newId now false).result = none
      ∧ (createOrderRemote menu draft newId now false).rows = []
      ∧ (createOrderRemote menu draft newId now false).stockWrites = [])
    ∧ (∀ w ∈ (createOrderRemote menu draft newId now true).stockWrites,
        ∃ item ∈ draft.items, item.id = w.1
          ∧ ∃ m ∈ menu, m.id = w.1 ∧ ∃ s, m.stock = some s
            ∧ w.2 = s - (item.quantity : Int))
    ∧ (∀ item ∈ draft.items, ∀ m, menu.find? (fun mm => decide (mm.id = item.id)) = some m →
        ∀ s, m.stock = some s →
          (item.id, s - (item.quantity : Int))
            ∈ (createOrderRemote menu draft newId now true).stockWrites) := by
  refine ⟨⟨rfl, rfl, rfl⟩, ?_, ?_⟩
  · intro w hw
    simp only [createOrderRemote, if_true, List.mem_filterMap] at hw
    obtain ⟨item, hitem, heq⟩ := hw
    split at heq
    next m hfm =>
      split at heq
      next s hs =>
        obtain rfl : (item.id, s - (item.quantity : Int)) = w := by injection heq
        refine ⟨item, hitem, rfl, m, List.mem_of_find?_eq_some hfm, ?_, s, hs, rfl⟩
        have h := List.find?_some hfm
        simpa using h
      next => cases heq
    next => cases heq
  · intro item hitem m hm s hs
    simp only [createOrderRemote, if_true, List.mem_filterMap]
    exact ⟨item, hitem, by rw [hm]; simp [hs]⟩

/-- A stock-tracking sample menu item matching `item1`. -/
def menuItem1 : MenuItem :=
  { id := "i1", name := "One", basePrice := 10000, bundle := none,
    stock := some 7, minStock := none }

/-- A sample draft holding three units of `item1`. -/
def draft1 : OrderDraft :=
  { paidDraft with items := [{ item1 with quantity := 3 }] }

/-- Witness for C8: a failed insert yields no result, rows or stock writes;
a successful one writes stock 7 - 3 for the tracked item. -/
theorem createOrder_remote_atomic_witness :
    ((createOrderRemote [menuItem1] draft1 "o9" "t0" false).result = none
      ∧ (createOrderRemote [menuItem1] draft1 "o9" "t0" false).rows = []
      ∧ (createOrderRemote [menuItem1] draft1 "o9" "t0" false).stockWrites = [])
    ∧ ("i1", (7 : Int) - (3 : Nat))
        ∈ (createOrderRemote [menuItem1] draft1 "o9" "t0" true).stockWrites :=
  ⟨(createOrder_remote_atomic [menuItem1] draft1 "o9" "t0").1,
   (createOrder_remote_atomic [menuItem1] draft1 "o9" "t0").2.2
     { item1 with quantity := 3 } (by decide) menuItem1 (by decide) 7 rfl⟩

/-! ## C9: quantity invariants of the two steppers -/

/-- C9: the edit-draft stepper sets the matching item's quantity to
`max(1, current + delta)` (never below 1, resetting `isPrepared` exactly on
increase), while the cashier cart keeps every remaining quantity positive and
removes an item decremented to 0. -/
theorem quantity_invariants (items cart : List CartItem) (itemId : String) (delta : Int) :
    ((∀ i ∈ items, 1 ≤ i.quantity) →
      ∀ i' ∈ handleUpdateQuantity items itemId delta, 1 ≤ i'.quantity)
    ∧ (∀ item ∈ items, item.id = itemId →
        ({ item with
            quantity := (max 1 ((item.quantity : Int) + delta)).toNat
            isPrepared := if 0 < delta then false else item.isPrepared }
          ∈ handleUpdateQuantity items itemId delta)
        ∧ 1 ≤ (max 1 ((item.quantity : Int) + delta)).toNat)
    ∧ (∀ i' ∈ updateQuantity cart itemId delta, 1 ≤ i'.quantity)
    ∧ ((∀ i ∈ cart, i.id = itemId → (i.quantity : Int) + delta ≤ 0) →
        ∀ i' ∈ updateQuantity cart itemId delta, i'.id ≠ itemId) := by
  refine ⟨?_, ?_, ?_, ?_⟩
  · intro hq i' hi'
    simp only [handleUpdateQuantity, List.mem_map] at hi'
    obtain ⟨a, ha, rfl⟩ := hi'
    by_cases h : a.id = itemId
    · simp only [if_pos h]
      exact one_le_toNat_max_one _
    · simp only [if_neg h]
      exact hq a ha
  · intro item hmem hid
    refine ⟨?_, one_le_toNat_max_one _⟩
    simp only [handleUpdateQuantity, List.mem_map]
    exact ⟨item, hmem, by rw [if_pos hid]⟩
  · intro i' hi'
    simp only [updateQuantity, List.mem_filter, decide_eq_true_iff] at hi'
    omega
  · intro hall i' hi'
    simp only [updateQuantity, List.mem_filter, List.mem_map, decide_eq_true_iff] at hi'
    obtain ⟨⟨a, ha, rfl⟩, hpos⟩ := hi'
    by_cases h : a.id = itemId
    · exfalso
      have hle := hall a ha h
      simp only [if_pos h] at hpos
      rw [max_eq_left hle] at hpos
      simp at hpos
    · simp only [if_neg h]
      exact h

/-- Witness for C9: decrementing a quantity-1 draft item keeps it at 1;
decrementing the quantity-1 cashier cart item removes it. -/
theorem quantity_invariants_witness :
    ((∀ i ∈ [item1], 1 ≤ i.quantity) →
      ∀ i' ∈ handleUpdateQuantity [item1] "i1" (-1), 1 ≤ i'.quantity)
    ∧ ((∀ i ∈ [item1], i.id = "i1" → (i.quantity : Int) + (-1) ≤ 0) →
        ∀ i' ∈ updateQuantity [item1] "i1" (-1), i'.id ≠ "i1") :=
  ⟨(quantity_invariants [item1] [item1] "i1" (-1)).1,
   (quantity_invariants [item1] [item1] "i1" (-1)).2.2.2⟩

/-! ## C4: the stock diff of `updateOrder`

The first pass of `computeDiffs` contributes `entryOld`, the second pass
`entryNew`; the lemmas below characterise the resulting record. -/

/-- Contribution of one old item in the first diff pass. -/
def entryOld (newItems : List CartItem) (oldItem : CartItem) : Option Int :=
  match findItem newItems oldItem.id with
  | none => some (oldItem.quantity : Int)
  | some newItem =>
      if newItem.quantity < oldItem.quantity then
        some ((oldItem.quantity : Int) - (newItem.quantity : Int))
      else none

/-- Contribution of one new item in the second diff pass. -/
def entryNew (oldItems : List CartItem) (newItem : CartItem) : Option Int :=
  match findItem oldItems newItem.id with
  | none => some (-(newItem.quantity : Int))
  | some oldItem =>
      if oldItem.quantity < newItem.quantity then
        some (-((newItem.quantity : Int) - (oldItem.quantity : Int)))
      else none

/-- One fold step of either diff pass, parameterised by its contribution. -/
def applyEntry (e : CartItem → Option Int) (diffs : List (String × Int)) (item : CartItem) :
    List (String × Int) :=
  match e item with
  | some d => upsertDiff diffs item.id d
  | none => diffs

/-- Inserting a key absent from the record appends it. -/
theorem upsertDiff_fresh (diffs : List (String × Int)) (id : String) (d : Int)
    (h : ∀ p ∈ diffs, p.1 ≠ id) : upsertDiff diffs id d = diffs ++ [(id, d)] := by
  have hc : ¬(diffs.any fun p => decide (p.1 = id)) = true := by
    rw [List.any_eq_true]
    rintro ⟨p, hp, he⟩
    exact h p hp (by simpa using he)
  unfold upsertDiff
  rw [if_neg hc]

/-- When each fired key is fresh for the accumulator and the keys are
pairwise distinct, a diff pass appends its contributions in order. -/
theorem foldl_applyEntry_eq_append (e : CartItem → Option Int) (items : List CartItem)
    (acc : List (String × Int))
    (hnodup : (items.map CartItem.id).Nodup)
    (hfresh : ∀ item ∈ items, e item ≠ none → ∀ p ∈ acc, p.1 ≠ item.id) :
    items.foldl (applyEntry e) acc
      = acc ++ (items.filterMap fun item => (e item).map fun d => (item.id, d)) := by
  induction items generalizing acc with
  | nil => simp
  | cons head tail ih =>
      simp only [List.map_cons, List.nodup_cons] at hnodup
      obtain ⟨hhead, htail⟩ := hnodup
      rw [List.foldl_cons, List.filterMap_cons]
      rcases he : e head with _ | d
      · simp only [applyEntry, he]
        exact ih _ htail fun item hm hne p hp => hfresh item (List.mem_cons_of_mem _ hm) hne p hp
      · simp only [applyEntry, he, Option.map_some']
        rw [upsertDiff_fresh acc head.id d
          (fun p hp => hfresh head (List.mem_cons_self _ _) (by simp [he]) p hp)]
        have hfresh' : ∀ item ∈ tail, e item ≠ none →
            ∀ p ∈ acc ++ [(head.id, d)], p.1 ≠ item.id := by
          intro item hm hne p hp
          rcases List.mem_append.mp hp with hp | hp
          · exact hfresh item (List.mem_cons_of_mem _ hm) hne p hp
          · simp only [List.mem_singleton] at hp
            subst hp
            intro hcontra
            have hcontra2 : head.id = item.id := hcontra
            apply hhead
            rw [hcontra2]
            exact List.mem_map_of_mem _ hm
        rw [ih _ htail hfresh']
        simp

/-- Looking a key up in a list whose keys are pairwise distinct finds any
member carrying that key. -/
theorem find?_key_of_mem {α : Type} (key : α → String) (l : List α) (a : α)
    (h : (l.map key).Nodup) (ha : a ∈ l) :
    l.find? (fun x => decide (key x = key a)) = some a := by
  induction l with
  | nil => cases ha
  | cons head tail ih =>
      simp only [List.map_cons, List.nodup_cons] at h
      rcases List.mem_cons.mp ha with rfl | hmem
      · exact List.find?_cons_of_pos _ (by simp)
      · have hne : ¬(key head = key a) := by
          intro hcontra
          apply h.1
          rw [hcontra]
          exact List.mem_map_of_mem key hmem
        rw [List.find?_cons_of_neg _ (by simpa using hne)]
        exact ih h.2 hmem

/-- Lookup with distinct ids returns the member itself. -/
theorem findItem_of_mem (items : List CartItem) (a : CartItem)
    (h : uniqueIds items) (ha : a ∈ items) : findItem items a.id = some a :=
  find?_key_of_mem CartItem.id items a h ha

/-- The keys of a diff pass form a sublist of the items' ids. -/
theorem keys_filterMap_sublist (e : CartItem → Option Int) (items : List CartItem) :
    ((items.filterMap fun item => (e item).map fun d => (item.id, d)).map Prod.fst).Sublist
      (items.map CartItem.id) := by
  induction items with
  | nil => simp
  | cons head tail ih =>
      rcases he : e head with _ | d
      · simp only [List.filterMap_cons, he, Option.map_none', List.map_cons]
        exact ih.trans (List.sublist_cons_self _ _)
      · simp only [List.filterMap_cons, he, Option.map_some', List.map_cons]
        exact ih.cons₂ head.id

/-- A key carried by no item is absent from the pass's output. -/
theorem find?_filterMap_key_none (e : CartItem → Option Int) (items : List CartItem)
    (k : String) (hk : ∀ i ∈ items, i.id ≠ k) :
    (items.filterMap fun item => (e item).map fun d => (item.id, d)).find?
      (fun p => decide (p.1 = k)) = none := by
  rw [List.find?_eq_none]
  intro p hp
  rw [List.mem_filterMap] at hp
  obtain ⟨i, hi, hpe⟩ := hp
  rw [Option.map_eq_some'] at hpe
  obtain ⟨d, _, rfl⟩ := hpe
  simp only [decide_eq_true_iff]
  exact hk i hi

/-- With distinct ids, looking a member's id up in a pass's output returns
exactly that member's contribution. -/
theorem find?_filterMap_key (e : CartItem → Option Int) (items : List CartItem)
    (a : CartItem) (h : uniqueIds items) (ha : a ∈ items) :
    (items.filterMap fun item => (e item).map fun d => (item.id, d)).find?
      (fun p => decide (p.1 = a.id)) = (e a).map fun d => (a.id, d) := by
  rcases he : e a with _ | d
  · rw [Option.map_none', List.find?_eq_none]
    intro p hp
    rw [List.mem_filterMap] at hp
    obtain ⟨i, hi, hpe⟩ := hp
    rw [Option.map_eq_some'] at hpe
    obtain ⟨d, hed, rfl⟩ := hpe
    simp only [decide_eq_true_iff]
    intro hid
    have hia : i = a := List.inj_on_of_nodup_map h hi ha hid
    subst hia
    rw [he] at hed
    cases hed
  · simp only [Option.map_some']
    have hmem : (a.id, d) ∈ items.filterMap fun item => (e item).map fun d => (item.id, d) :=
      List.mem_filterMap.mpr ⟨a, ha, by rw [he]; rfl⟩
    exact find?_key_of_mem Prod.fst _ (a.id, d)
      ((keys_filterMap_sublist e items).nodup h) hmem

/-- An old item and a new item with the same id cannot both fire: the two
passes touch disjoint key sets. -/
theorem entry_disjoint (oldItems newItems : List CartItem)
    (hold : uniqueIds oldItems) (hnew : uniqueIds newItems)
    (oItem : CartItem) (ho : oItem ∈ oldItems) (nItem : CartItem) (hn : nItem ∈ newItems)
    (hone : entryOld newItems oItem ≠ none) (hnne : entryNew oldItems nItem ≠ none)
    (hid : oItem.id = nItem.id) : False := by
  have hfo : findItem oldItems nItem.id = some oItem := by
    rw [← hid]; exact findItem_of_mem oldItems oItem hold ho
  have hfn : findItem newItems oItem.id = some nItem := by
    rw [hid]; exact findItem_of_mem newItems nItem hnew hn
  have heOld : entryOld newItems oItem
      = if nItem.quantity < oItem.quantity then
          some ((oItem.quantity : Int) - (nItem.quantity : Int))
        else none := by
    unfold entryOld
    rw [hfn]
  have heNew : entryNew oldItems nItem
      = if oItem.quantity < nItem.quantity then
          some (-((nItem.quantity : Int) - (oItem.quantity : Int)))
        else none := by
    unfold entryNew
    rw [hfo]
  rw [heOld] at hone
  rw [heNew] at hnne
  by_cases h1 : nItem.quantity < oItem.quantity
  · by_cases h2 : oItem.quantity < nItem.quantity
    · omega
    · rw [if_neg h2] at hnne
      exact hnne rfl
  · rw [if_neg h1] at hone
    exact hone rfl

/-- `computeDiffs` is the first pass's contributions followed by the second
pass's. -/
theorem computeDiffs_eq_filterMap (oldItems newItems : List CartItem)
    (hold : uniqueIds oldItems) (hnew : uniqueIds newItems) :
    computeDiffs oldItems newItems
      = (oldItems.filterMap fun i => (entryOld newItems i).map fun d => (i.id, d))
        ++ newItems.filterMap fun i => (entryNew oldItems i).map fun d => (i.id, d) := by
  have hstep1 : ∀ (diffs : List (String × Int)) (oldItem : CartItem),
      (match findItem newItems oldItem.id with
        | none => upsertDiff diffs oldItem.id (oldItem.quantity : Int)
        | some newItem =>
            if newItem.quantity < oldItem.quantity then
              upsertDiff diffs oldItem.id ((oldItem.quantity : Int) - (newItem.quantity : Int))
            else diffs)
      = applyEntry (entryOld newItems) diffs oldItem := by
    intro diffs oldItem
    unfold applyEntry entryOld
    rcases findItem newItems oldItem.id with _ | b
    · rfl
    · by_cases hb : b.quantity < oldItem.quantity <;> simp [hb]
  have hstep2 : ∀ (diffs : List (String × Int)) (newItem : CartItem),
      (match findItem oldItems newItem.id with
        | none => upsertDiff diffs newItem.id (-(newItem.quantity : Int))
        | some oldItem =>
            if oldItem.quantity < newItem.quantity then
              upsertDiff diffs newItem.id
                (-((newItem.quantity : Int) - (oldItem.quantity : Int)))
            else diffs)
      = applyEntry (entryNew oldItems) diffs newItem := by
    intro diffs newItem
    unfold applyEntry entryNew
    rcases findItem oldItems newItem.id with _ | b
    · rfl
    · by_cases hb : b.quantity < newItem.quantity <;> simp [hb]
  have hfresh2 : ∀ nItem ∈ newItems, entryNew oldItems nItem ≠ none →
      ∀ p ∈ oldItems.filterMap fun i => (entryOld newItems i).map fun d => (i.id, d),
        p.1 ≠ nItem.id := by
    intro nItem hn hne p hp
    rw [List.mem_filterMap] at hp
    obtain ⟨oItem, ho, hpe⟩ := hp
    rw [Option.map_eq_some'] at hpe
    obtain ⟨d, hod, rfl⟩ := hpe
    simp only
    intro hid
    exact entry_disjoint oldItems newItems hold hnew oItem ho nItem hn
      (by rw [hod]; exact fun hx => Option.noConfusion hx) hne hid
  unfold computeDiffs
  rw [List.foldl_ext _ (applyEntry (entryOld newItems)) _ fun diffs item _ => hstep1 diffs item]
  rw [List.foldl_ext _ (applyEntry (entryNew oldItems)) _ fun diffs item _ => hstep2 diffs item]
  rw [foldl_applyEntry_eq_append (entryOld newItems) oldItems [] hold (by simp)]
  rw [List.nil_append]
  rw [foldl_applyEntry_eq_append (entryNew oldItems) newItems _ hnew hfresh2]

/-- The keys of the whole diff record are pairwise distinct. -/
theorem computeDiffs_keys_nodup (oldItems newItems : List CartItem)
    (hold : uniqueIds oldItems) (hnew : uniqueIds newItems) :
    ((computeDiffs oldItems newItems).map Prod.fst).Nodup := by
  rw [computeDiffs_eq_filterMap oldItems newItems hold hnew, List.map_append,
    List.nodup_append]
  refine ⟨(keys_filterMap_sublist _ _).nodup hold,
    (keys_filterMap_sublist _ _).nodup hnew, ?_⟩
  intro k hk1 hk2
  simp only [List.mem_map, List.mem_filterMap, Option.map_eq_some'] at hk1 hk2
  obtain ⟨p, ⟨oItem, ho, d1, he1, rfl⟩, hpk⟩ := hk1
  obtain ⟨q, ⟨nItem, hn, d2, he2, rfl⟩, hqk⟩ := hk2
  exact entry_disjoint oldItems newItems hold hnew oItem ho nItem hn
    (by rw [he1]; exact fun hx => Option.noConfusion hx)
    (by rw [he2]; exact fun hx => Option.noConfusion hx)
    (by simp only at hpk hqk; rw [hpk, hqk])

/-- Any entry of the diff record is what the per-id lookup returns. -/
theorem diffOf_of_mem (oldItems newItems : List CartItem)
    (hold : uniqueIds oldItems) (hnew : uniqueIds newItems)
    (p : String × Int) (hp : p ∈ computeDiffs oldItems newItems) :
    diffOf (computeDiffs oldItems newItems) p.1 = p.2 := by
  unfold diffOf
  rw [find?_key_of_mem Prod.fst _ p (computeDiffs_keys_nodup oldItems newItems hold hnew) hp]

/-- With distinct ids on both sides, the recorded net delta per id is the old
quantity minus the new quantity (0 standing for an absent id or key). -/
theorem diffOf_computeDiffs (oldItems newItems : List CartItem)
    (hold : uniqueIds oldItems) (hnew : uniqueIds newItems) (id : String) :
    diffOf (computeDiffs oldItems newItems) id = qtyOf oldItems id - qtyOf newItems id := by
  rw [diffOf, computeDiffs_eq_filterMap oldItems newItems hold hnew, qtyOf, qtyOf]
  rw [List.find?_append]
  rcases hfo : findItem oldItems id with _ | a
  · have hnotin : ∀ i ∈ oldItems, i.id ≠ id := by
      intro i hi heq
      have h := List.find?_eq_none.mp hfo i hi
      simp [heq] at h
    rw [find?_filterMap_key_none (entryOld newItems) oldItems id hnotin, Option.none_or]
    rcases hfn : findItem newItems id with _ | b
    · have hnotin2 : ∀ i ∈ newItems, i.id ≠ id := by
        intro i hi heq
        have h := List.find?_eq_none.mp hfn i hi
        simp [heq] at h
      rw [find?_filterMap_key_none (entryNew oldItems) newItems id hnotin2]
      simp
    · have hb : b ∈ newItems := List.mem_of_find?_eq_some hfn
      have hbid : b.id = id := by
        have h := List.find?_some hfn
        simpa using h
      have henew : entryNew oldItems b = some (-(b.quantity : Int)) := by
        unfold entryNew
        rw [hbid, hfo]
      have hk2 := find?_filterMap_key (entryNew oldItems) newItems b hnew hb
      rw [henew, Option.map_some', hbid] at hk2
      rw [hk2]
      simp
  · have ha : a ∈ oldItems := List.mem_of_find?_eq_some hfo
    have haid : a.id = id := by
      have h := List.find?_some hfo
      simpa using h
    have hk1 := find?_filterMap_key (entryOld newItems) oldItems a hold ha
    rw [haid] at hk1
    rcases hfn : findItem newItems id with _ | b
    · have heold : entryOld newItems a = some (a.quantity : Int) := by
        unfold entryOld
        rw [haid, hfn]
      rw [heold, Option.map_some'] at hk1
      rw [hk1]
      simp
    · have hb : b ∈ newItems := List.mem_of_find?_eq_some hfn
      have hbid : b.id = id := by
        have h := List.find?_some hfn
        simpa using h
      have heold : entryOld newItems a
          = if b.quantity < a.quantity then
              some ((a.quantity : Int) - (b.quantity : Int))
            else none := by
        unfold entryOld
        rw [haid, hfn]
      have henew : entryNew oldItems b
          = if a.quantity < b.quantity then
              some (-((b.quantity : Int) - (a.quantity : Int)))
            else none := by
        unfold entryNew
        rw [hbid, hfo]
      have hk2 := find?_filterMap_key (entryNew oldItems) newItems b hnew hb
      rw [hbid] at hk2
      rcases lt_trichotomy b.quantity a.quantity with hlt | heqq | hgt
      · rw [heold, if_pos hlt, Option.map_some'] at hk1
        rw [hk1]
        rfl
      · rw [heold, if_neg (by omega), Option.map_none'] at hk1
        rw [henew, if_neg (by omega), Option.map_none'] at hk2
        rw [hk1, Option.none_or, hk2]
        show (0 : Int) = (a.quantity : Int) - (b.quantity : Int)
        omega
      · rw [heold, if_neg (by omega), Option.map_none'] at hk1
        rw [henew, if_pos hgt, Option.map_some'] at hk2
        rw [hk1, Option.none_or, hk2]
        show -((b.quantity : Int) - (a.quantity : Int))
          = (a.quantity : Int) - (b.quantity : Int)
        omega

/-- C4: the stock adjustment of an items edit is a per-id diff of old vs new
quantities — an id only in the old items returns its old quantity, an id only
in the new items consumes its new quantity, an id in both contributes
old minus new; writes go only to existing menu items with a defined stock,
carry value `stock + delta`, skip zero deltas, and an edit that changes no
quantity produces no stock-adjustment calls at all. -/
theorem updateOrder_stock_diff (menu : List MenuItem) (oldItems newItems : List CartItem)
    (hold : uniqueIds oldItems) (hnew : uniqueIds newItems) :
    (∀ id, diffOf (computeDiffs oldItems newItems) id = qtyOf oldItems id - qtyOf newItems id)
    ∧ (∀ w ∈ stockAdjustments menu oldItems newItems,
        diffOf (computeDiffs oldItems newItems) w.1 ≠ 0
        ∧ ∃ m ∈ menu, m.id = w.1 ∧ ∃ s, m.stock = some s
            ∧ w.2 = s + diffOf (computeDiffs oldItems newItems) w.1)
    ∧ ((∀ id, qtyOf oldItems id = qtyOf newItems id) →
        stockAdjustments menu oldItems newItems = []) := by
  refine ⟨fun id => diffOf_computeDiffs oldItems newItems hold hnew id, ?_, ?_⟩
  · intro w hw
    unfold stockAdjustments at hw
    rw [List.mem_filterMap] at hw
    obtain ⟨p, hp, hpe⟩ := hw
    by_cases hz : p.2 = 0
    · rw [if_pos hz] at hpe
      cases hpe
    · rw [if_neg hz] at hpe
      split at hpe
      next m hm =>
        split at hpe
        next s hs =>
          obtain rfl : (p.1, s + p.2) = w := by injection hpe
          have hd : diffOf (computeDiffs oldItems newItems) p.1 = p.2 :=
            diffOf_of_mem oldItems newItems hold hnew p hp
          refine ⟨by rw [hd]; exact hz, m, List.mem_of_find?_eq_some hm, ?_, s, hs, by rw [hd]⟩
          have h := List.find?_some hm
          simpa using h
        next => cases hpe
      next => cases hpe
  · intro hq
    unfold stockAdjustments
    rw [List.filterMap_eq_nil_iff]
    intro p hp
    have hd := diffOf_of_mem oldItems newItems hold hnew p hp
    rw [diffOf_computeDiffs oldItems newItems hold hnew, hq p.1] at hd
    rw [if_pos (by omega)]

/-- Old items of the spec's stock-delta example: A×2, B×3. -/
def exOld : List CartItem :=
  [{ item1 with id := "A", quantity := 2 }, { item1 with id := "B", quantity := 3 }]

/-- New items of the spec's stock-delta example: A×1, B×3, C×2. -/
def exNew : List CartItem :=
  [{ item1 with id := "A", quantity := 1 }, { item1 with id := "B", quantity := 3 },
   { item1 with id := "C", quantity := 2 }]

/-- Witness for C4 at the spec's example: the net delta of `A` is its old
quantity minus its new quantity. -/
theorem updateOrder_stock_diff_witness :
    uniqueIds exOld ∧ uniqueIds exNew
    ∧ diffOf (computeDiffs exOld exNew) "A" = qtyOf exOld "A" - qtyOf exNew "A" :=
  ⟨by unfold uniqueIds; decide, by unfold uniqueIds; decide,
   (updateOrder_stock_diff [] exOld exNew (by unfold uniqueIds; decide)
     (by unfold uniqueIds; decide)).1 "A"⟩

end Pos
